import Mathlib

/-!
Shallow embedding of `src/storage.rs` from the `legion` entity-component
storage core: chunks with type-erased columns, the swap-remove protocol,
the chunk builder's capacity computation, the archetype's first-fit chunk
selection, and the per-column borrow counter.

Type identities (`std::any::TypeId`) are modelled as natural-number keys;
type-erased component payloads are modelled as natural numbers (only their
count per column matters to the properties at stake); the `HashMap`s of the
source are modelled as association lists with `List.lookup`.
-/

/-- Entity values are opaque identifiers owned by the world collaborator. -/
abbrev Entity := Nat

/-- Stands in for `std::any::TypeId`, a stable per-type key. -/
abbrev TypeKey := Nat

/-- Result of `Vec::swap_remove(i)`: the element at `i` is replaced by the
last element and the vector shrinks by one.  (Rust panics when `i` is out
of range; the claims only quantify over in-range indices.) -/
def swapRemove (l : List α) (i : Nat) : List α :=
  match l.getLast? with
  | none => l
  | some last => (l.set i last).dropLast

/-- A `Chunk` from `storage.rs`: fixed capacity, a dense entity array, one
column per component type key, shared-value slots, and one borrow counter
per component type key. -/
structure Chunk where
  capacity : Nat
  entities : List Entity
  components : List (TypeKey × List Nat)
  shared : List (TypeKey × Nat)
  borrows : List (TypeKey × Int)
deriving Repr, DecidableEq

/-- Mirrors `Chunk::len`: the entity array's length. -/
def Chunk.len (c : Chunk) : Nat := c.entities.length

/-- Mirrors `Chunk::is_full`: `self.len() == self.capacity`. -/
def Chunk.is_full (c : Chunk) : Bool := c.len == c.capacity

/-- Mirrors `Chunk::remove`: swap-removes row `id` from the entity array and
from every column, then returns the entity now at `id` when one moved there
(`entities.len() > index`), else `None`. -/
def Chunk.remove (c : Chunk) (id : Nat) : Chunk × Option Entity :=
  ({ c with entities := swapRemove c.entities id
          , components := c.components.map (fun p => (p.1, swapRemove p.2 id)) },
   if (swapRemove c.entities id).length > id then (swapRemove c.entities id)[id]?
   else none)

/-- Mirrors `Chunk::validate`: true exactly when every column's length
equals the entity array's length (the source panics when this is false). -/
def Chunk.validate (c : Chunk) : Bool :=
  c.components.foldl (fun total p => total && (p.2.length == c.entities.length)) true

/-- Modelled from the spec: `Borrow::aquire_read` lives outside `src/` (only
its caller `Chunk::borrow` is in `storage.rs`).  Per the spec it succeeds and
increments the counter when the state is ≥ 0, and returns an error value
(never panics) when the exclusive holder (−1) is present. -/
def aquire_read (state : Int) : Except Unit Int :=
  if 0 ≤ state then .ok (state + 1) else .error ()

/-- Modelled from the spec: `Borrow::aquire_write` succeeds and transitions
0 → −1 atomically; it returns an error value when the state is nonzero. -/
def aquire_write (state : Int) : Except Unit Int :=
  if state = 0 then .ok (-1) else .error ()

/-- Modelled from the spec: releasing a read holder decrements the counter
(undoing its acquisition's contribution exactly once). -/
def release_read (state : Int) : Int := state - 1

/-- Modelled from the spec: releasing the write holder sets the counter back
to 0. -/
def release_write (_state : Int) : Int := 0

/-- Outcome of a column-access request through `entity_data` /
`entity_data_mut`: the type is absent from the chunk, the call panicked
(an `expect` or `unwrap` fired), or a borrow was acquired leaving the given
counter value. -/
inductive AccessResult
  | absent
  | panicked
  | acquired (newState : Int)
deriving Repr, DecidableEq

/-- Mirrors `Chunk::entity_data`: `None` (absent) when `T` is not in the
component map; otherwise it goes through `Chunk::borrow`, which calls
`Borrow::aquire_read(state).unwrap()` — a conflict there is a panic, not a
returned failure. -/
def Chunk.entity_data (c : Chunk) (t : TypeKey) : AccessResult :=
  match c.components.lookup t with
  | none => .absent
  | some _ =>
    match c.borrows.lookup t with
    | none => .panicked
    | some s =>
      match aquire_read s with
      | .ok s' => .acquired s'
      | .error _ => .panicked

/-- Mirrors `Chunk::entity_data_mut`: as `entity_data` but through
`Chunk::borrow_mut`, which unwraps `Borrow::aquire_write`. -/
def Chunk.entity_data_mut (c : Chunk) (t : TypeKey) : AccessResult :=
  match c.components.lookup t with
  | none => .absent
  | some _ =>
    match c.borrows.lookup t with
    | none => .panicked
    | some s =>
      match aquire_write s with
      | .ok s' => .acquired s'
      | .error _ => .panicked

/-- Mirrors `Chunk::shared_component`: the shared-value slot for `T`, absent
when the chunk does not declare `T`. -/
def Chunk.shared_component (c : Chunk) (t : TypeKey) : Option Nat :=
  c.shared.lookup t

/-- Modelled from the spec: the world-level lock-step append (outside
`src/`) pushes the entity and one element onto every declared column, so all
columns and the entity array grow together. -/
def Chunk.append (c : Chunk) (e : Entity) (v : Nat) : Chunk :=
  { c with entities := c.entities ++ [e]
         , components := c.components.map (fun p => (p.1, p.2 ++ [v])) }

/-- Mirrors `ChunkBuilder`: registered components are an ordered list of
(type key, per-element byte size) — the column constructor closures are
implicit in the model — and registered shared values are a keyed map. -/
structure ChunkBuilder where
  components : List (TypeKey × Nat)
  shared : List (TypeKey × Nat)
deriving Repr, DecidableEq

/-- Mirrors `ChunkBuilder::MAX_SIZE = 16 * 1024`, the chunk memory budget. -/
def ChunkBuilder.MAX_SIZE : Nat := 16 * 1024

/-- Mirrors `ChunkBuilder::new`. -/
def ChunkBuilder.new : ChunkBuilder := ⟨[], []⟩

/-- Mirrors `ChunkBuilder::register_component::<T>()`: appends
`(TypeId::of::<T>(), size_of::<T>())` to the component list. -/
def ChunkBuilder.register_component (b : ChunkBuilder) (t : TypeKey) (size : Nat) :
    ChunkBuilder :=
  { b with components := b.components ++ [(t, size)] }

/-- Mirrors `ChunkBuilder::register_shared`: `HashMap::insert`, replacing
any previous value stored under the same key. -/
def ChunkBuilder.register_shared (b : ChunkBuilder) (t : TypeKey) (v : Nat) :
    ChunkBuilder :=
  { b with shared := (b.shared.filter (fun p => p.1 != t)) ++ [(t, v)] }

/-- Mirrors the `size_bytes` computation in `ChunkBuilder::build`:
`components.iter().map(size).max().unwrap_or(MAX_SIZE)`. -/
def ChunkBuilder.size_bytes (b : ChunkBuilder) : Nat :=
  ((b.components.map (fun p => p.2)).max?).getD ChunkBuilder.MAX_SIZE

/-- Mirrors `ChunkBuilder::build`.  Rust's `MAX_SIZE / size_bytes` panics on
division by zero, so the fallible model returns `none` exactly when
`size_bytes = 0`; otherwise `capacity = max(1, MAX_SIZE / size_bytes)` and
the chunk starts empty with one column and one zeroed borrow counter per
registered component. -/
def ChunkBuilder.build (b : ChunkBuilder) : Option Chunk :=
  if b.size_bytes = 0 then none
  else some
    { capacity := max 1 (ChunkBuilder.MAX_SIZE / b.size_bytes)
    , entities := []
    , components := b.components.map (fun p => (p.1, []))
    , shared := b.shared
    , borrows := b.components.map (fun p => (p.1, 0)) }

/-- Mirrors `Archetype`: a component/shared type signature and an ordered
chunk list (the logger field is irrelevant to the embedded behaviour). -/
structure Archetype where
  components : List TypeKey
  shared : List TypeKey
  chunks : List Chunk
deriving Repr, DecidableEq

/-- Mirrors `Archetype::chunk`: bounds-checked `Vec::get`. -/
def Archetype.chunk (a : Archetype) (id : Nat) : Option Chunk :=
  a.chunks[id]?

/-- Mirrors `Archetype::chunk_mut`: bounds-checked `Vec::get_mut` (the
returned value is what the caller may mutate; the lookup itself is the same
indexing as `chunk`). -/
def Archetype.chunk_mut (a : Archetype) (id : Nat) : Option Chunk :=
  a.chunks[id]?

/-- Mirrors `Archetype::has_component`. -/
def Archetype.has_component (a : Archetype) (t : TypeKey) : Bool :=
  a.components.contains t

/-- Mirrors `Archetype::has_shared`. -/
def Archetype.has_shared (a : Archetype) (t : TypeKey) : Bool :=
  a.shared.contains t

/-- First index whose element satisfies `p`: models the iterator chain
`chunks.iter().enumerate().filter(...).map(i).next()` in
`Archetype::get_or_create_chunk`. -/
def firstIdx (p : α → Bool) : List α → Option Nat
  | [] => none
  | a :: l => if p a then some 0 else (firstIdx p l).map (· + 1)

/-- Mirrors `Archetype::get_or_create_chunk`.  The caller-supplied `S` and
`C` capabilities are modelled by the match predicate `is_chunk_match` and
the two builder-configuration functions.  A found chunk yields its index
with the archetype unchanged; otherwise a new chunk is built (shared
configuration first, then components, as in the source), appended, and the
new last index is returned.  `none` models the panic path of a failed
build. -/
def Archetype.get_or_create_chunk (a : Archetype) (is_chunk_match : Chunk → Bool)
    (sharedConfigure componentsConfigure : ChunkBuilder → ChunkBuilder) :
    Option (Nat × Archetype) :=
  match firstIdx (fun c => !c.is_full && is_chunk_match c) a.chunks with
  | some i => some (i, a)
  | none =>
    match (componentsConfigure (sharedConfigure ChunkBuilder.new)).build with
    | some chunk => some (a.chunks.length, { a with chunks := a.chunks ++ [chunk] })
    | none => none

/-- An operation on a chunk: a lock-step append of a fresh row, or a removal
of the row at a given index. -/
inductive ChunkOp
  | append (e : Entity) (v : Nat)
  | remove (id : Nat)
deriving Repr, DecidableEq

/-- Applies a single operation to a chunk. -/
def Chunk.applyOp (c : Chunk) : ChunkOp → Chunk
  | .append e v => c.append e v
  | .remove id => (c.remove id).1

/-- Applies a sequence of operations left to right. -/
def Chunk.applyOps (c : Chunk) (ops : List ChunkOp) : Chunk :=
  ops.foldl Chunk.applyOp c

/-- Every `remove` in the sequence has an in-range row id at the moment it
is applied (the precondition the source leaves to the caller). -/
def validOps (c : Chunk) : List ChunkOp → Bool
  | [] => true
  | op :: rest =>
    (match op with
     | .append _ _ => true
     | .remove id => decide (id < c.len)) && validOps (c.applyOp op) rest

/-! Helper lemmas about `swapRemove`. -/

theorem swapRemove_length (l : List α) (i : Nat) :
    (swapRemove l i).length = l.length - 1 := by
  unfold swapRemove
  cases h : l.getLast? with
  | none => simp [List.getLast?_eq_none_iff.mp h]
  | some last => simp [List.length_dropLast, List.length_set]

theorem swapRemove_getElem? (l : List α) (i : Nat) (h : i + 1 < l.length) :
    (swapRemove l i)[i]? = l.getLast? := by
  unfold swapRemove
  cases hl : l.getLast? with
  | none =>
    have hnil : l = [] := List.getLast?_eq_none_iff.mp hl
    rw [hnil] at h
    simp at h
  | some last =>
    show ((l.set i last).dropLast)[i]? = some last
    rw [List.dropLast_eq_take, List.getElem?_take, List.length_set,
      if_pos (by omega), List.getElem?_set, if_pos rfl, if_pos (by omega)]

theorem remove_fst_entities (c : Chunk) (i : Nat) :
    (c.remove i).1.entities = swapRemove c.entities i := rfl

theorem remove_snd_eq (c : Chunk) (i : Nat) :
    (c.remove i).2 =
      if (swapRemove c.entities i).length > i then (swapRemove c.entities i)[i]?
      else none := rfl

/-- C3: for a chunk and an in-range row id, removing a non-last row returns
`Some` of the entity value that was previously stored at the last row and
now occupies the removed index after the swap; removing the last row
returns `None`. -/
theorem remove_swap_spec (c : Chunk) (i : Nat) (h : i < c.len) :
    c.entities.getLast?.isSome = true ∧
    (i + 1 < c.len →
      (c.remove i).2 = c.entities.getLast? ∧
      (c.remove i).1.entities[i]? = c.entities.getLast?) ∧
    (i + 1 = c.len → (c.remove i).2 = none) := by
  have hL : c.len = c.entities.length := rfl
  have hlen : (swapRemove c.entities i).length = c.entities.length - 1 :=
    swapRemove_length _ _
  refine ⟨?_, ?_, ?_⟩
  · cases hg : c.entities.getLast? with
    | none =>
      have hnil : c.entities = [] := List.getLast?_eq_none_iff.mp hg
      rw [hL, hnil] at h
      simp at h
    | some _ => rfl
  · intro hlt
    have hget := swapRemove_getElem? c.entities i (by omega)
    refine ⟨?_, ?_⟩
    · rw [remove_snd_eq, if_pos (by omega), hget]
    · rw [remove_fst_entities, hget]
  · intro heq
    rw [remove_snd_eq, if_neg (by omega)]

/-- C3 witness: removing row 0 of a three-row chunk returns the old last
entity 12, and removing the last row returns nothing. -/
theorem remove_swap_spec_witness :
    (Chunk.remove ⟨4, [10, 11, 12], [(0, [5, 6, 7])], [], [(0, 0)]⟩ 0).2 = some 12 ∧
    (Chunk.remove ⟨4, [10, 11, 12], [(0, [5, 6, 7])], [], [(0, 0)]⟩ 2).2 = none := by
  have h0 := remove_swap_spec ⟨4, [10, 11, 12], [(0, [5, 6, 7])], [], [(0, 0)]⟩ 0 (by decide)
  have h2 := remove_swap_spec ⟨4, [10, 11, 12], [(0, [5, 6, 7])], [], [(0, 0)]⟩ 2 (by decide)
  exact ⟨by rw [(h0.2.1 (by decide)).1]; rfl, h2.2.2 (by decide)⟩

/-- C1 counterexample: on a chunk that declares component key 0 with a live
write holder (borrow counter −1), a read request through `entity_data`
panics — the conflict error from `Borrow::aquire_read` is unwrapped inside
`Chunk::borrow` — instead of returning a recoverable failure value; same
for a write request while a reader (counter 3) is live. -/
theorem entity_data_conflict_panics :
    Chunk.entity_data ⟨4, [], [(0, [])], [], [(0, -1)]⟩ 0 = AccessResult.panicked ∧
    Chunk.entity_data_mut ⟨4, [], [(0, [])], [], [(0, 3)]⟩ 0 = AccessResult.panicked := by
  decide

/-- C1 amended: when a caller requests column access for a declared type
while a conflicting borrow is live (negative counter for a read request,
nonzero counter for a write request), `entity_data` / `entity_data_mut`
deny the acquisition by panicking: `Chunk::borrow` / `borrow_mut` unwrap
the error from `Borrow::aquire_read` / `aquire_write`, so the recoverable
failure value exists only at the `Borrow` level, never reaching the
caller of `entity_data` / `entity_data_mut`. -/
theorem entity_data_conflict_result (c : Chunk) (t : TypeKey) (col : List Nat) (s : Int)
    (hc : c.components.lookup t = some col) (hb : c.borrows.lookup t = some s) :
    (s < 0 → c.entity_data t = .panicked) ∧
    (s ≠ 0 → c.entity_data_mut t = .panicked) := by
  constructor
  · intro hs
    unfold Chunk.entity_data
    simp only [hc, hb]
    unfold aquire_read
    rw [if_neg (by omega)]
  · intro hs
    unfold Chunk.entity_data_mut
    simp only [hc, hb]
    unfold aquire_write
    rw [if_neg hs]

/-- C1 amended witness: at a concrete chunk with counter −2 on key 0, a
read request panics. -/
theorem entity_data_conflict_result_witness :
    Chunk.entity_data ⟨4, [], [(0, [])], [], [(0, -2)]⟩ 0 = AccessResult.panicked :=
  (entity_data_conflict_result ⟨4, [], [(0, [])], [], [(0, -2)]⟩ 0 [] (-2)
    rfl rfl).1 (by decide)

/-- C6: the borrow counter contract: read acquisition succeeds exactly on
non-negative states, incrementing by one, and fails with an error value at
−1; write acquisition succeeds exactly at zero, transitioning to −1, and
fails on nonzero states; each release undoes its acquisition's
contribution exactly once, so after all read holders release the counter
is exactly zero, and after the write holder releases it is zero. -/
theorem borrow_counter_spec :
    (∀ s : Int, (∃ s', aquire_read s = .ok s') ↔ 0 ≤ s) ∧
    (∀ s : Int, 0 ≤ s → aquire_read s = .ok (s + 1)) ∧
    aquire_read (-1) = .error () ∧
    (∀ s : Int, (∃ s', aquire_write s = .ok s') ↔ s = 0) ∧
    aquire_write 0 = .ok (-1) ∧
    (∀ s : Int, release_read (s + 1) = s) ∧
    release_write (-1) = 0 ∧
    (∀ n : Nat, release_read^[n] (n : Int) = 0) := by
  refine ⟨?_, ?_, by unfold aquire_read; rw [if_neg (by omega)],
    ?_, by unfold aquire_write; rw [if_pos rfl], ?_, rfl, ?_⟩
  · intro s
    constructor
    · rintro ⟨s', hs⟩
      unfold aquire_read at hs
      by_contra hneg
      rw [if_neg hneg] at hs
      exact Except.noConfusion hs
    · intro hs
      exact ⟨s + 1, by unfold aquire_read; rw [if_pos hs]⟩
  · intro s hs
    unfold aquire_read
    rw [if_pos hs]
  · intro s
    constructor
    · rintro ⟨s', hs⟩
      unfold aquire_write at hs
      by_contra hneq
      rw [if_neg hneq] at hs
      exact Except.noConfusion hs
    · intro hs
      exact ⟨-1, by unfold aquire_write; rw [if_pos hs]⟩
  · intro s
    unfold release_read
    ring
  · intro n
    induction n with
    | zero => simp
    | succ k ih =>
      rw [Function.iterate_succ_apply]
      have hstep : release_read ((k + 1 : Nat) : Int) = (k : Int) := by
        unfold release_read
        push_cast
        ring
      rw [hstep, ih]

/-- C6 witness: reading at counter 3 yields 4; writing at 0 yields −1. -/
theorem borrow_counter_spec_witness :
    aquire_read 3 = Except.ok 4 ∧ aquire_write 0 = Except.ok (-1) :=
  ⟨borrow_counter_spec.2.1 3 (by decide), borrow_counter_spec.2.2.2.2.1⟩

/-- C7: each absence case independently of the others — a type absent from
the component map yields `absent` from `entity_data` / `entity_data_mut`
(whether or not it is declared shared); a type absent from the shared map
yields `none` from `shared_component` (whether or not it is declared as a
component); an out-of-range chunk id yields `none` from `Archetype::chunk`
/ `chunk_mut` — never an error or panic. -/
theorem absent_capability_none (c : Chunk) (t : TypeKey) (a : Archetype) (id : Nat) :
    (c.components.lookup t = none →
      c.entity_data t = .absent ∧ c.entity_data_mut t = .absent) ∧
    (c.shared.lookup t = none → c.shared_component t = none) ∧
    (a.chunks.length ≤ id → a.chunk id = none ∧ a.chunk_mut id = none) := by
  refine ⟨?_, fun h2 => h2, ?_⟩
  · intro h1
    constructor
    · unfold Chunk.entity_data
      simp only [h1]
    · unfold Chunk.entity_data_mut
      simp only [h1]
  · intro h3
    exact ⟨List.getElem?_eq_none h3, List.getElem?_eq_none h3⟩

/-- C7 witness: on a chunk declaring component key 0 and shared key 1,
probing `entity_data` at key 1 (declared shared but not as a component) is
absent, probing `shared_component` at key 0 (declared as a component but
not shared) is `none`, and chunk id 0 on an archetype with no chunks is
absent. -/
theorem absent_capability_none_witness :
    Chunk.entity_data ⟨4, [], [(0, [])], [(1, 5)], [(0, 0)]⟩ 1 = AccessResult.absent ∧
    Chunk.shared_component ⟨4, [], [(0, [])], [(1, 5)], [(0, 0)]⟩ 0 = none ∧
    Archetype.chunk ⟨[], [], []⟩ 0 = none := by
  refine ⟨?_, ?_, ?_⟩
  · exact ((absent_capability_none ⟨4, [], [(0, [])], [(1, 5)], [(0, 0)]⟩ 1
      ⟨[], [], []⟩ 0).1 rfl).1
  · exact (absent_capability_none ⟨4, [], [(0, [])], [(1, 5)], [(0, 0)]⟩ 0
      ⟨[], [], []⟩ 0).2.1 rfl
  · exact ((absent_capability_none ⟨4, [], [(0, [])], [(1, 5)], [(0, 0)]⟩ 0
      ⟨[], [], []⟩ 0).2.2 (by decide)).1

/-- C2: whenever `build` succeeds, the capacity equals
`max(1, MAX_SIZE / size_bytes)`, is at least 1, and — except in the forced
minimum-of-1 case where the quotient is zero — satisfies
`capacity * max_component_size ≤ MAX_SIZE`; with no components registered
the floor size `MAX_SIZE` forces capacity 1. -/
theorem build_capacity_spec (b : ChunkBuilder) (c : Chunk)
    (h : b.build = some c) :
    c.capacity = max 1 (ChunkBuilder.MAX_SIZE / b.size_bytes) ∧
    1 ≤ c.capacity ∧
    (1 ≤ ChunkBuilder.MAX_SIZE / b.size_bytes →
      c.capacity * b.size_bytes ≤ ChunkBuilder.MAX_SIZE) ∧
    (b.components = [] → c.capacity = 1) := by
  unfold ChunkBuilder.build at h
  by_cases hz : b.size_bytes = 0
  · rw [if_pos hz] at h
    exact Option.noConfusion h
  · rw [if_neg hz] at h
    injection h with h'
    subst h'
    refine ⟨rfl, Nat.le_max_left 1 _, ?_, ?_⟩
    · intro hq
      show max 1 (ChunkBuilder.MAX_SIZE / b.size_bytes) * b.size_bytes ≤ _
      rw [Nat.max_eq_right hq]
      exact Nat.div_mul_le_self _ _
    · intro he
      show max 1 (ChunkBuilder.MAX_SIZE / b.size_bytes) = 1
      unfold ChunkBuilder.size_bytes
      rw [he]
      norm_num [ChunkBuilder.MAX_SIZE]

/-- C2 witness: one registered component of size 64 builds a chunk of
capacity 256 = max(1, 16384 / 64) with 256 * 64 ≤ 16384. -/
theorem build_capacity_spec_witness :
    Chunk.capacity ⟨256, [], [(0, [])], [], [(0, 0)]⟩ =
      max 1 (ChunkBuilder.MAX_SIZE / (ChunkBuilder.new.register_component 0 64).size_bytes) ∧
    1 ≤ Chunk.capacity ⟨256, [], [(0, [])], [], [(0, 0)]⟩ ∧
    (1 ≤ ChunkBuilder.MAX_SIZE / (ChunkBuilder.new.register_component 0 64).size_bytes →
      Chunk.capacity ⟨256, [], [(0, [])], [], [(0, 0)]⟩ *
        (ChunkBuilder.new.register_component 0 64).size_bytes ≤ ChunkBuilder.MAX_SIZE) ∧
    ((ChunkBuilder.new.register_component 0 64).components = [] →
      Chunk.capacity ⟨256, [], [(0, [])], [], [(0, 0)]⟩ = 1) :=
  build_capacity_spec (ChunkBuilder.new.register_component 0 64)
    ⟨256, [], [(0, [])], [], [(0, 0)]⟩ (by decide)

/-- C9: with at least one component registered and the largest registered
per-element size zero, `build` hits `16384 / 0` — a division-by-zero panic
in Rust, `none` in the fallible model — so the capacity ≥ 1 guarantee
carries the unstated precondition that the maximum component size is
positive. -/
theorem build_zero_size_panics (b : ChunkBuilder)
    (_h1 : b.components ≠ []) (h2 : b.size_bytes = 0) :
    b.build = none := by
  unfold ChunkBuilder.build
  rw [if_pos h2]

/-- C9 witness: registering a single zero-sized component makes `build`
fail. -/
theorem build_zero_size_panics_witness :
    (ChunkBuilder.new.register_component 0 0).build = none :=
  build_zero_size_panics (ChunkBuilder.new.register_component 0 0)
    (by decide) (by decide)

/-! Helper lemmas for permutation invariance of the maximum size. -/

theorem max?_eq_foldr (l : List Nat) (h : l ≠ []) :
    l.max? = some (l.foldr max 0) := by
  induction l with
  | nil => simp at h
  | cons a t ih =>
    cases t with
    | nil => simp [List.max?_cons]
    | cons b t2 =>
      rw [List.max?_cons, ih (by simp)]
      simp [Nat.max_comm, Nat.max_assoc, Nat.max_left_comm]

theorem max?_perm {l1 l2 : List Nat} (h : l1.Perm l2) : l1.max? = l2.max? := by
  by_cases h1 : l1 = []
  · subst h1
    rw [h.symm.eq_nil]
  · have h2 : l2 ≠ [] := by
      intro hnil
      subst hnil
      exact h1 h.eq_nil
    rw [max?_eq_foldr l1 h1, max?_eq_foldr l2 h2, h.foldr_eq 0]

/-- C8: two builders whose registered component multisets are permutations
of one another build chunks of the same capacity (capacity is a pure
function of the maximum registered size, independent of registration
order); in particular both builds fail or succeed together. -/
theorem build_capacity_perm (b1 b2 : ChunkBuilder)
    (h : b1.components.Perm b2.components) :
    (b1.build).map Chunk.capacity = (b2.build).map Chunk.capacity := by
  have hsz : b1.size_bytes = b2.size_bytes := by
    unfold ChunkBuilder.size_bytes
    rw [max?_perm (h.map (fun p => p.2))]
  unfold ChunkBuilder.build
  rw [hsz]
  by_cases hz : b2.size_bytes = 0
  · rw [if_pos hz, if_pos hz]
  · rw [if_neg hz, if_neg hz]
    rfl

/-- C8 witness: registering sizes 8 then 32 versus 32 then 8 yields the
same capacity. -/
theorem build_capacity_perm_witness :
    ((ChunkBuilder.new.register_component 0 8).register_component 1 32).build.map
        Chunk.capacity =
      ((ChunkBuilder.new.register_component 1 32).register_component 0 8).build.map
        Chunk.capacity :=
  build_capacity_perm
    ((ChunkBuilder.new.register_component 0 8).register_component 1 32)
    ((ChunkBuilder.new.register_component 1 32).register_component 0 8)
    (by decide)

/-! Helper lemmas for the validate invariant. -/

theorem foldl_and_eq (q : α → Bool) (l : List α) (b : Bool) :
    l.foldl (fun t p => t && q p) b = (b && l.all q) := by
  induction l generalizing b with
  | nil => simp
  | cons a t ih => simp [List.foldl_cons, ih, Bool.and_assoc]

theorem validate_true_iff (c : Chunk) :
    c.validate = true ↔ ∀ p ∈ c.components, p.2.length = c.entities.length := by
  unfold Chunk.validate
  rw [foldl_and_eq]
  simp [List.all_eq_true]

theorem applyOp_validate (c : Chunk) (op : ChunkOp)
    (hc : c.validate = true)
    (hop : (match op with
            | .append _ _ => true
            | .remove id => decide (id < c.len)) = true) :
    (c.applyOp op).validate = true := by
  cases op with
  | append e v =>
    rw [validate_true_iff] at hc ⊢
    intro p hp
    unfold Chunk.applyOp Chunk.append at hp ⊢
    simp only [List.mem_map] at hp
    obtain ⟨q, hq, rfl⟩ := hp
    simp [hc q hq]
  | remove id =>
    rw [validate_true_iff] at hc ⊢
    intro p hp
    unfold Chunk.applyOp Chunk.remove at hp ⊢
    simp only [List.mem_map] at hp
    obtain ⟨q, hq, rfl⟩ := hp
    simp only [swapRemove_length, hc q hq]

/-- C4: starting from a chunk every one of whose column lengths equals the
entity-array length, any sequence of lock-step appends and in-range
removes preserves this: `validate` succeeds after each operation, i.e.
after every prefix of the sequence. -/
theorem validate_preserved (c : Chunk) (ops : List ChunkOp)
    (hc : c.validate = true) (hops : validOps c ops = true) :
    ∀ n, (c.applyOps (ops.take n)).validate = true := by
  induction ops generalizing c with
  | nil =>
    intro n
    simpa [Chunk.applyOps] using hc
  | cons op rest ih =>
    intro n
    unfold validOps at hops
    rw [Bool.and_eq_true] at hops
    obtain ⟨hop, hrest⟩ := hops
    cases n with
    | zero => simpa [Chunk.applyOps] using hc
    | succ k =>
      rw [List.take_succ_cons]
      have hstep := applyOp_validate c op hc hop
      have hres := ih (c.applyOp op) hstep hrest k
      simpa [Chunk.applyOps] using hres

/-- C4 witness: a balanced two-row chunk stays valid through an append
followed by a remove of row 0. -/
theorem validate_preserved_witness :
    (Chunk.applyOps ⟨4, [1, 2], [(0, [7, 8])], [], [(0, 0)]⟩
      (List.take 2 [ChunkOp.append 3 9, ChunkOp.remove 0])).validate = true :=
  validate_preserved ⟨4, [1, 2], [(0, [7, 8])], [], [(0, 0)]⟩
    [ChunkOp.append 3 9, ChunkOp.remove 0] (by decide) (by decide) 2

/-! Helper lemmas characterising `firstIdx`. -/

theorem firstIdx_eq_some_of (p : α → Bool) (l : List α) (i : Nat) (c : α)
    (hc : l[i]? = some c) (hp : p c = true)
    (hmin : ∀ j cj, j < i → l[j]? = some cj → p cj = false) :
    firstIdx p l = some i := by
  induction l generalizing i with
  | nil => simp at hc
  | cons a t ih =>
    cases i with
    | zero =>
      simp only [List.getElem?_cons_zero, Option.some.injEq] at hc
      subst hc
      unfold firstIdx
      rw [if_pos hp]
    | succ k =>
      have ha : p a = false := hmin 0 a (Nat.succ_pos k) (by simp)
      unfold firstIdx
      rw [if_neg (by simp [ha])]
      have ht : firstIdx p t = some k := by
        apply ih k
        · simpa using hc
        · intro j cj hj hcj
          exact hmin (j + 1) cj (by omega) (by simpa using hcj)
      rw [ht]
      rfl

theorem firstIdx_eq_none_of (p : α → Bool) (l : List α)
    (h : ∀ c ∈ l, p c = false) : firstIdx p l = none := by
  induction l with
  | nil => rfl
  | cons a t ih =>
    unfold firstIdx
    rw [if_neg (by simp [h a (List.mem_cons_self a t)])]
    rw [ih (fun c hc => h c (List.mem_cons_of_mem a hc))]
    rfl

theorem firstIdx_some_mem (p : α → Bool) (l : List α) (i : Nat)
    (h : firstIdx p l = some i) : ∃ c, l[i]? = some c ∧ p c = true := by
  induction l generalizing i with
  | nil => simp [firstIdx] at h
  | cons a t ih =>
    unfold firstIdx at h
    by_cases hp : p a = true
    · rw [if_pos hp] at h
      injection h with h'
      subst h'
      exact ⟨a, by simp, hp⟩
    · rw [if_neg hp] at h
      cases hf : firstIdx p t with
      | none =>
        rw [hf] at h
        exact Option.noConfusion h
      | some k =>
        rw [hf] at h
        have h2 : k + 1 = i := by simpa using h
        subst h2
        obtain ⟨c, hc, hpc⟩ := ih k hf
        exact ⟨c, by simpa using hc, hpc⟩

/-- C5: `get_or_create_chunk` returns the index of the first chunk in
insertion order that is not full and matches the required shared
signature, leaving the archetype unchanged; when no existing chunk
qualifies, it builds a new chunk from the caller-configured builder
(shared values first, then components), appends it at the end of the
chunk list, and returns the new last index. -/
theorem get_or_create_chunk_spec (a : Archetype) (m : Chunk → Bool)
    (scfg ccfg : ChunkBuilder → ChunkBuilder) :
    (∀ i c, a.chunks[i]? = some c → (!c.is_full && m c) = true →
      (∀ j cj, j < i → a.chunks[j]? = some cj → (!cj.is_full && m cj) = false) →
      a.get_or_create_chunk m scfg ccfg = some (i, a)) ∧
    ((∀ c ∈ a.chunks, (!c.is_full && m c) = false) →
      ∀ ch, (ccfg (scfg ChunkBuilder.new)).build = some ch →
      a.get_or_create_chunk m scfg ccfg =
        some (a.chunks.length, { a with chunks := a.chunks ++ [ch] })) := by
  constructor
  · intro i c hc hp hmin
    unfold Archetype.get_or_create_chunk
    rw [firstIdx_eq_some_of (fun c => !c.is_full && m c) a.chunks i c hc hp hmin]
  · intro hall ch hch
    unfold Archetype.get_or_create_chunk
    rw [firstIdx_eq_none_of (fun c => !c.is_full && m c) a.chunks hall, hch]

/-- C5 witness: on an archetype with no chunks, a configuration
registering one component of size 64 allocates the capacity-256 chunk and
returns index 0. -/
theorem get_or_create_chunk_spec_witness :
    Archetype.get_or_create_chunk ⟨[0], [], []⟩ (fun _ => true)
      (fun b => b) (fun b => b.register_component 0 64) =
      some (0, ⟨[0], [], [⟨256, [], [(0, [])], [], [(0, 0)]⟩]⟩) :=
  (get_or_create_chunk_spec ⟨[0], [], []⟩ (fun _ => true)
      (fun b => b) (fun b => b.register_component 0 64)).2
    (by intro c hc; simp at hc)
    ⟨256, [], [(0, [])], [], [(0, 0)]⟩ (by decide)

theorem build_not_full (b : ChunkBuilder) (c : Chunk) (h : b.build = some c) :
    c.is_full = false := by
  unfold ChunkBuilder.build at h
  by_cases hz : b.size_bytes = 0
  · rw [if_pos hz] at h
    exact Option.noConfusion h
  · rw [if_neg hz] at h
    injection h with h'
    subst h'
    have h1 : 1 ≤ max 1 (ChunkBuilder.MAX_SIZE / b.size_bytes) := Nat.le_max_left _ _
    simp only [Chunk.is_full, Chunk.len, List.length_nil, beq_eq_false_iff_ne]
    omega

/-- C10: any chunk returned by `get_or_create_chunk` has spare capacity at
the moment it is returned: a reused chunk passed the not-full filter, and
a freshly built chunk has zero rows while its capacity is at least 1. -/
theorem get_or_create_chunk_not_full (a : Archetype) (m : Chunk → Bool)
    (scfg ccfg : ChunkBuilder → ChunkBuilder) (i : Nat) (a' : Archetype)
    (h : a.get_or_create_chunk m scfg ccfg = some (i, a')) :
    ∃ c, a'.chunks[i]? = some c ∧ c.is_full = false := by
  unfold Archetype.get_or_create_chunk at h
  cases hf : firstIdx (fun c => !c.is_full && m c) a.chunks with
  | some j =>
    rw [hf] at h
    injection h with h'
    rw [Prod.mk.injEq] at h'
    obtain ⟨rfl, rfl⟩ := h'
    obtain ⟨c, hc, hpc⟩ := firstIdx_some_mem _ _ _ hf
    rw [Bool.and_eq_true, Bool.not_eq_true'] at hpc
    exact ⟨c, hc, hpc.1⟩
  | none =>
    rw [hf] at h
    cases hb : (ccfg (scfg ChunkBuilder.new)).build with
    | none =>
      rw [hb] at h
      exact Option.noConfusion h
    | some ch =>
      rw [hb] at h
      injection h with h'
      rw [Prod.mk.injEq] at h'
      obtain ⟨rfl, rfl⟩ := h'
      refine ⟨ch, ?_, build_not_full _ _ hb⟩
      exact List.getElem?_concat_length a.chunks ch

/-- C10 witness: the chunk allocated on an empty archetype has spare
capacity. -/
theorem get_or_create_chunk_not_full_witness :
    ∃ c, (Archetype.chunks ⟨[0], [], [⟨256, [], [(0, [])], [], [(0, 0)]⟩]⟩)[0]? = some c ∧
      c.is_full = false :=
  get_or_create_chunk_not_full ⟨[0], [], []⟩ (fun _ => true) (fun b => b)
    (fun b => b.register_component 0 64) 0
    ⟨[0], [], [⟨256, [], [(0, [])], [], [(0, 0)]⟩]⟩ (by decide)

